import Mathlib

/-!
Verification of the funtastic functional-programming utility library.

The library's runtime values are dynamically typed JavaScript values; we embed
them as the inductive type `JSVal`.  JavaScript numbers are modelled as `Int`
(every number appearing in the library's code, tests and spec is an integer;
floating-point behaviour is outside the model).  Functions appearing *inside*
data (as object members) are modelled by the `func` constructor carrying only
their own enumerable properties, since the library never calls such a stored
function except through the containers, which receive genuine Lean functions.
Symbols are identified by a numeric id.  `Error` instances carry their
message.  `NaN` — which arises inside the library itself, e.g. from
`42 + undefined` in `concat` — gets its own constructor `nan`, distinct from
the integer numbers; other floating-point behaviour stays outside the model.
-/

inductive JSVal where
  | undefined
  | null
  | bool (b : Bool)
  | num (n : Int)
  | nan
  | big (n : Int)
  | str (s : String)
  | sym (id : Nat)
  | arr (elems : List JSVal)
  | obj (fields : List (String × JSVal))
  | func (fields : List (String × JSVal))
  | err (msg : String)

/-- JavaScript `typeof` operator (note `typeof null === 'object'`). -/
def jsTypeof : JSVal → String
  | .undefined => "undefined"
  | .null => "object"
  | .bool _ => "boolean"
  | .num _ => "number"
  | .nan => "number"
  | .big _ => "bigint"
  | .str _ => "string"
  | .sym _ => "symbol"
  | .arr _ => "object"
  | .obj _ => "object"
  | .func _ => "function"
  | .err _ => "object"

/-- JavaScript truthiness of a value. -/
def jsTruthy : JSVal → Bool
  | .undefined => false
  | .null => false
  | .bool b => b
  | .num n => n != 0
  | .nan => false
  | .big n => n != 0
  | .str s => s != ""
  | .sym _ => true
  | .arr _ => true
  | .obj _ => true
  | .func _ => true
  | .err _ => true

/-- The test `is(undefined, v) || is(null, v)` used throughout the source to
detect the absent state. -/
def isUndefOrNull : JSVal → Bool
  | .undefined => true
  | .null => true
  | _ => false

/-- The test `is(Error, v)` (`v instanceof Error`) used by `Result`. -/
def isErrorVal : JSVal → Bool
  | .err _ => true
  | _ => false

def isStrVal : JSVal → Bool
  | .str _ => true
  | _ => false

def isFunctionVal : JSVal → Bool
  | .func _ => true
  | _ => false

def isArrayVal : JSVal → Bool
  | .arr _ => true
  | _ => false

/-!
String conversion and the JavaScript `+` operator, as exercised by `concat`.
These model ECMAScript ToString / ToPrimitive / addition for the value space
of `JSVal`.  Conversions that can raise a JavaScript `TypeError` (symbols in
string context, mixing bigint with other operand kinds) return `Except.error`.
-/

/-- ToString of a primitive value; symbols raise a TypeError in string context. -/
def primToString : JSVal → Except String String
  | .undefined => .ok "undefined"
  | .null => .ok "null"
  | .bool b => .ok (if b then "true" else "false")
  | .num n => .ok (toString n)
  | .nan => .ok "NaN"
  | .big n => .ok (toString n)
  | .str s => .ok s
  | .sym _ => .error "TypeError: Cannot convert a Symbol value to a string"
  | .arr _ => .error "primToString: not a primitive"
  | .obj _ => .error "primToString: not a primitive"
  | .func _ => .error "primToString: not a primitive"
  | .err _ => .error "primToString: not a primitive"

mutual

/-- JavaScript ToString.  Arrays stringify as their comma-joined elements with
`undefined`/`null` elements becoming empty; plain objects as `[object Object]`;
`Error` instances via `Error.prototype.toString`. -/
def jsToString : JSVal → Except String String
  | .arr elems => Except.map (fun ss => String.intercalate "," ss) (jsToStringElems elems)
  | .obj _ => .ok "[object Object]"
  | .func _ => .ok "function"
  | .err m => .ok (if m == "" then "Error" else "Error: " ++ m)
  | v => primToString v

def jsToStringElems : List JSVal → Except String (List String)
  | [] => .ok []
  | v :: vs =>
      match (if isUndefOrNull v then .ok "" else jsToString v), jsToStringElems vs with
      | .ok s, .ok rest => .ok (s :: rest)
      | .error e, _ => .error e
      | _, .error e => .error e

end

/-- ToPrimitive with default hint: objects, arrays, functions and errors become
their string form (their `valueOf` returns the object itself, so `toString`
decides); primitives are returned unchanged. -/
def toPrimitive (v : JSVal) : Except String JSVal :=
  match v with
  | .arr _ => Except.map JSVal.str (jsToString v)
  | .obj _ => Except.map JSVal.str (jsToString v)
  | .func _ => Except.map JSVal.str (jsToString v)
  | .err _ => Except.map JSVal.str (jsToString v)
  | _ => .ok v

/-- ToNumber of a primitive, for the numeric branch of `+`: it yields a
number value — `num` or `nan` (the ToNumber of `undefined`, which `concat`
reaches through `42 + undefined`).  The cases marked unreachable cannot arise
from `+`: strings take the concatenation path, bigints are handled before
numeric coercion, and objects pass through ToPrimitive first. -/
def toNumberJS : JSVal → Except String JSVal
  | .num n => .ok (.num n)
  | .nan => .ok .nan
  | .bool b => .ok (.num (if b then 1 else 0))
  | .null => .ok (.num 0)
  | .undefined => .ok .nan
  | .str _ => .error "toNumberJS: unreachable (string operands concatenate)"
  | .sym _ => .error "TypeError: Cannot convert a Symbol value to a number"
  | .big _ => .error "toNumberJS: unreachable (bigint handled earlier)"
  | .arr _ => .error "toNumberJS: unreachable (objects pass through toPrimitive)"
  | .obj _ => .error "toNumberJS: unreachable (objects pass through toPrimitive)"
  | .func _ => .error "toNumberJS: unreachable (objects pass through toPrimitive)"
  | .err _ => .error "toNumberJS: unreachable (objects pass through toPrimitive)"

/-- The JavaScript binary `+` operator.  In the numeric branch an operand
whose ToNumber is `NaN` (so `undefined`) makes the sum `NaN`. -/
def jsAdd (a b : JSVal) : Except String JSVal := do
  let pa ← toPrimitive a
  let pb ← toPrimitive b
  if isStrVal pa || isStrVal pb then do
    let sa ← primToString pa
    let sb ← primToString pb
    pure (.str (sa ++ sb))
  else
    match pa, pb with
    | .big x, .big y => pure (.big (x + y))
    | .big _, _ => .error "TypeError: Cannot mix BigInt and other types"
    | _, .big _ => .error "TypeError: Cannot mix BigInt and other types"
    | qa, qb => do
        let na ← toNumberJS qa
        let nb ← toNumberJS qb
        match na, nb with
        | .num x, .num y => pure (.num (x + y))
        | _, _ => pure .nan

/-- The JavaScript `&&` operator: `a && b` is `b` when `a` is truthy, else `a`. -/
def jsAnd (a b : JSVal) : JSVal :=
  if jsTruthy a then b else a

/-- Iterable spread `[...v]`: arrays yield their elements, strings their
characters; every other value raises a TypeError (`Map`/`Set` are outside the
value model). -/
def spreadList : JSVal → Except String (List JSVal)
  | .arr es => .ok es
  | .str s => .ok (s.toList.map (fun c => JSVal.str (String.singleton c)))
  | _ => .error "TypeError: value is not iterable"

/-- Own enumerable string-keyed entries of a value, as used by object spread
`{...v}`: objects and functions yield their fields, arrays and strings their
index-keyed elements, everything else nothing (an `Error`'s `message` is not
enumerable).  JavaScript re-orders integer-like keys first; the library's
merges only involve plain string keys, so insertion order is kept. -/
def ownEnumEntries : JSVal → List (String × JSVal)
  | .obj fs => fs
  | .func fs => fs
  | .arr es => es.enum.map (fun p => (toString p.1, p.2))
  | .str s => s.toList.enum.map (fun p => (toString p.1, JSVal.str (String.singleton p.2)))
  | _ => []

/-- Inserting one entry the way object spread does: an existing key is
overwritten in place, a new key is appended. -/
def upsert (fs : List (String × JSVal)) (k : String) (v : JSVal) : List (String × JSVal) :=
  if fs.any (fun p => p.1 == k)
  then fs.map (fun p => if p.1 == k then (k, v) else p)
  else fs ++ [(k, v)]

/-- Field list of `{...a, ...b}` given the entries of `a` and `b`. -/
def mergeEntries (a b : List (String × JSVal)) : List (String × JSVal) :=
  b.foldl (fun acc p => upsert acc p.1 p.2) a

/-!
The type predicate `is` (src core `is`).  A tag is one of the sentinel
constructors handled by the `switch`, a nominal class constructor (the
`default` branch's instanceof path), or an arbitrary non-constructor value
(the `default` branch's `typeof x === typeof t` fallback).
-/

inductive Tag where
  | tBigInt
  | tBoolean
  | tFunction
  | tNumber
  | tObject
  | tSymbol
  | tString
  | tFunctor
  | tArray
  | tUndefined
  | tNull
  | tCtor (name : String)
  | tValue (v : JSVal)

/-- The `'map' in x && typeof x.map === 'function'` test for an object-typed
`x`: arrays inherit `Array.prototype.map`; a plain object passes when one of
its own fields named `map` holds a function; `Error` instances and `null` have
no `map` member (though on `null` the real `in` operator throws — see
`isVal`). -/
def hasCallableMap : JSVal → Bool
  | .arr _ => true
  | .obj fs => fs.any (fun p => p.1 == "map" && isFunctionVal p.2)
  | _ => false

/-- The `x instanceof t` test of the `default` branch.  Only `Error` is used
nominally by the library (`is(Error, x)` in `Result`), so the model recognises
exactly the `Error` class; other class names match no modelled value. -/
def instanceOfName (name : String) (x : JSVal) : Bool :=
  match x with
  | .err _ => name == "Error"
  | _ => false

/-- The inner dispatch function of `is` (the `fn` closure in the source): the
result of `is(t, x)` whenever `x` is not `undefined` (for `undefined` the
outer call returns the curried closure instead of a boolean).  The `Functor`
case evaluates `'map' in x` after `typeof x === 'object'`, which on `x = null`
throws a TypeError — hence the `Except`. -/
def isVal (t : Tag) (x : JSVal) : Except String Bool :=
  match t with
  | .tBigInt => .ok (jsTypeof x == "bigint")
  | .tBoolean => .ok (jsTypeof x == "boolean")
  | .tFunction => .ok (jsTypeof x == "function")
  | .tNumber => .ok (jsTypeof x == "number")
  | .tObject => .ok (jsTypeof x == "object")
  | .tSymbol => .ok (jsTypeof x == "symbol")
  | .tString => .ok (jsTypeof x == "string")
  | .tFunctor =>
      if jsTypeof x == "object" then
        match x with
        | .null => .error "TypeError: Cannot use 'in' operator to search for 'map' in null"
        | _ => .ok (hasCallableMap x)
      else .ok false
  | .tArray => .ok (isArrayVal x)
  | .tUndefined => .ok (jsTypeof x == "undefined")
  | .tNull => .ok (match x with | .null => true | _ => false)
  | .tCtor name => .ok (instanceOfName name x)
  | .tValue v => .ok (jsTypeof x == jsTypeof v)

/-- Truthiness of the call `is(t, x)` when it is used directly as a
condition: for `x = undefined` the outer wrapper of `is` returns the curried
inner closure — a truthy value — without dispatching at all; for every other
`x` it returns the boolean the dispatch computes.  The `error` fallback is
unreachable for the tags this library tests in conditions (only
`is(Functor, null)` can throw, and those call sites are truthiness-guarded). -/
def isCallTruthy (t : Tag) (x : JSVal) : Bool :=
  match x with
  | .undefined => true
  | _ =>
      match isVal t x with
      | .ok b => b
      | .error _ => false

/-!
The shared `concat` body of `Optional.concat` and `Result.concat` (the two
method bodies are textually identical).  The chain of tests mirrors the
source: absent receiver, then `is(BigInt, x)`, `is(Number, x)`, `is(String,
x)`, `is(Boolean, x)`, `is(Array, x)`, then `is(Object, x) || is(Function)`.
Each dispatch test is the *truthiness* of an `is` call, so an `undefined`
argument — for which `is(BigInt, undefined)` already returns the truthy
curried closure — takes the first branch and computes `this.x + undefined`.
The last test's second disjunct is `is(Function)` *without a second argument*,
which returns the (truthy) curried closure, so that branch swallows every
remaining value and the final replace branch is dead code; the `|| true` keeps
that structure visible.
-/

def concatVal (self x : JSVal) : Except String JSVal :=
  if isUndefOrNull self then .ok x
  else if isCallTruthy .tBigInt x then jsAdd self x
  else if isCallTruthy .tNumber x then jsAdd self x
  else if isCallTruthy .tString x then jsAdd self x
  else if isCallTruthy .tBoolean x then .ok (jsAnd self x)
  else
    match x with
    | .arr es => Except.map (fun ss => JSVal.arr (ss ++ es)) (spreadList self)
    | _ =>
        if jsTypeof x == "object" || true then
          .ok (.obj (mergeEntries (ownEnumEntries self) (ownEnumEntries x)))
        else .ok x

/-- Modelled from the amended wording of the concat claim: replacement exactly
when the held value is `undefined` or `null`; an `undefined` argument goes
through the JavaScript `+` operator (the first dispatch test,
`is(BigInt, undefined)`, is the truthy curried closure), as do bigint, number
— `NaN` included — and string arguments; boolean through `&&`, array through
spread; and *every* remaining type — object and function, but also symbol and
`null` — takes the shallow-merge branch. -/
def concatAmendedSpec (self x : JSVal) : Except String JSVal :=
  if isUndefOrNull self then .ok x
  else
    match x with
    | .undefined => jsAdd self x
    | .big _ => jsAdd self x
    | .num _ => jsAdd self x
    | .nan => jsAdd self x
    | .str _ => jsAdd self x
    | .bool _ => .ok (jsAnd self x)
    | .arr es => Except.map (fun ss => JSVal.arr (ss ++ es)) (spreadList self)
    | _ => .ok (.obj (mergeEntries (ownEnumEntries self) (ownEnumEntries x)))

/-!
The `Optional` container (src optional).  It wraps a single held value `x`.
`apply` receives another Optional whose held slot is either a callable (a
genuine function, modelled as a Lean function) or an absent value; the
source's `is(undefined, fn.x) || is(null, fn.x)` test is the `none` case.
-/

structure Optional where
  x : JSVal

def Optional.of (v : JSVal) : Optional :=
  if isUndefOrNull v then ⟨.undefined⟩ else ⟨v⟩

def Optional.map (o : Optional) (fn : JSVal → JSVal) : Optional :=
  if isUndefOrNull (fn o.x) then ⟨.undefined⟩ else ⟨fn o.x⟩

def Optional.apply (o : Optional) (fx : Option (JSVal → JSVal)) : Optional :=
  match fx with
  | none => ⟨.undefined⟩
  | some f => o.map f

def Optional.bind (o : Optional) (fn : JSVal → Optional) : Optional :=
  if isUndefOrNull (fn o.x).x then ⟨.undefined⟩ else ⟨(fn o.x).x⟩

def Optional.concat (o : Optional) (v : JSVal) : Except String Optional :=
  Except.map Optional.mk (concatVal o.x v)

/-- The `match({Some, None})` method: `None()` when the held value is
`undefined` or `null`, else `Some(x)`. -/
def Optional.matchWith (o : Optional) (some : JSVal → JSVal) (noneCase : JSVal) : JSVal :=
  if isUndefOrNull o.x then noneCase else some o.x

/-!
The `Result` container (src result).  `Result.of` runtime-behaves identically
on both overload branches (`new Result(x)` either way), so it is the plain
wrapper.  The absorbing test of `map`/`bind` is the truthiness of
`is(Error, this.x)` — truthy for an `Error` held value *and also* for a held
`undefined`, on which the curried closure is returned; `apply` tests
`is(Error, fn.x)` on the *argument's* held slot the same way, modelled by
`FnOrErr` (whose `undefv` case is an absent function slot).  `concat` — note
well — tests `is(undefined, this.x) || is(null, this.x)` like Optional's, not
the error state.
-/

structure Result where
  x : JSVal

inductive FnOrErr where
  | errv (msg : String)
  | undefv
  | fnv (f : JSVal → JSVal)

def Result.of (v : JSVal) : Result := ⟨v⟩

def Result.map (r : Result) (fn : JSVal → JSVal) : Result :=
  if isCallTruthy (.tCtor "Error") r.x then r else Result.of (fn r.x)

def Result.apply (r : Result) (fx : FnOrErr) : Result :=
  match fx with
  | .errv _ => r
  | .undefv => r
  | .fnv f => r.map f

def Result.bind (r : Result) (fn : JSVal → Result) : Result :=
  if isCallTruthy (.tCtor "Error") r.x then r else fn r.x

def Result.concat (r : Result) (v : JSVal) : Except String Result :=
  Except.map Result.mk (concatVal r.x v)

/-!
The standalone `match` combinator (src core `match`).  A matcher entry is
either a literal value or a handler function (`typeof b[k] === 'function'`
decides which at dispatch time).  `Object.keys` iteration order is the
declaration order of the (string-keyed) entries, modelled by the list order.
-/

inductive Handler where
  | lit (v : JSVal)
  | hfn (f : JSVal → JSVal)

/-- The `x.constructor.name` of a non-absent value (accessing it on
`undefined`/`null` would throw, but every use in `match` is guarded by the
truthiness of `x`). -/
def constructorName : JSVal → Option String
  | .undefined => none
  | .null => none
  | .bool _ => some "Boolean"
  | .num _ => some "Number"
  | .nan => some "Number"
  | .big _ => some "BigInt"
  | .str _ => some "String"
  | .sym _ => some "Symbol"
  | .arr _ => some "Array"
  | .obj _ => some "Object"
  | .func _ => some "Function"
  | .err _ => some "Error"

/-- Strict equality `x === k` between a value and a matcher key, which is
always a string. -/
def strictEqKey (x : JSVal) (k : String) : Bool :=
  match x with
  | .str s => s == k
  | _ => false

/-- The `is(Functor, x)` test as used inside `match`, where `x` is known
truthy (so the throwing `null` case of `isVal .tFunctor` cannot arise). -/
def isFunctorB (x : JSVal) : Bool :=
  jsTypeof x == "object" && hasCallableMap x

/-- One key test of the `match` loop:
`x === k || x && (k === x.constructor.name || (k === 'Functor' && is(Functor, x)) || k === '_')`.
The truthiness guard `x &&` is what keeps falsy values away from every clause
but strict equality — including the `_` fallback. -/
def keyMatches (k : String) (x : JSVal) : Bool :=
  strictEqKey x k
    || (jsTruthy x
        && (constructorName x == some k
            || (k == "Functor" && isFunctorB x)
            || k == "_"))

/-- The inner dispatch closure of `match`: first matching key wins; a function
entry is applied to `x`, a literal entry is returned; no match throws. -/
def matchFn (b : List (String × Handler)) (x : JSVal) : Except String JSVal :=
  match b with
  | [] => .error "No match"
  | (k, h) :: rest =>
      if keyMatches k x then
        .ok (match h with | .lit v => v | .hfn f => f x)
      else matchFn rest x

inductive MatchOuter where
  | curriedFn
  | result (r : Except String JSVal)

/-- The outer variadic wrapper of `match`:
`typeof x === 'undefined' ? fn : fn(x)` — calling it on `undefined` yields the
curried closure rather than dispatching. -/
def matchOuter (b : List (String × Handler)) (x : JSVal) : MatchOuter :=
  match x with
  | .undefined => .curriedFn
  | _ => .result (matchFn b x)

/-!
The `Effect` container (src effect).  The wrapped callable and every mapped
transformation are JavaScript functions returning JavaScript values, so the
pipeline value type is `JSVal`; the embedding gives the functions a writer
type `α → List String × JSVal` whose `List String` component is the trace of
invocations they log, so that laziness and invocation order are observable.
`Effect.map` mirrors the source closure
`(...args) => { const y = this.fn(...args); return is(Promise, y) ? y.then(fn) : fn(y) }`:
the dispatch `is(Promise, y)` is the boolean instance test for a defined `y`
— false for every modelled synchronous value — but for `y = undefined` the
call `is(Promise, undefined)` returns the truthy curried closure, and
`undefined.then(fn)` then throws a TypeError.  A raised error propagates out
of `call` and the remaining stages never run, hence the `Except` in the
result; genuine deferred (promise) values are outside this synchronous model,
as is `call`'s argument spreading.  Constructing an Effect or mapping over it
builds a closure and produces no trace; only `call` runs anything.
-/

def Effect (A : Type) : Type := A → List String × Except String JSVal

def Effect.of {A : Type} (fn : A → List String × JSVal) : Effect A :=
  fun args => ((fn args).1, .ok (fn args).2)

def Effect.map {A : Type} (e : Effect A) (fn : JSVal → List String × JSVal) : Effect A :=
  fun args =>
    match e args with
    | (l, .error msg) => (l, .error msg)
    | (l, .ok y) =>
        if isCallTruthy (.tCtor "Promise") y then
          (l, .error "TypeError: Cannot read properties of undefined (reading then)")
        else
          (l ++ (fn y).1, .ok (fn y).2)

def Effect.call {A : Type} (e : Effect A) (args : A) : List String × Except String JSVal :=
  e args

/-- A pure function instrumented to log one trace entry per invocation — the
call-counting stub the spec's testable property asks for. -/
def traced {T : Type} (name : String) (f : T → JSVal) : T → List String × JSVal :=
  fun x => ([name], f x)

/-- Registering a whole list of mapped transformations in order. -/
def mapChain {A : Type} (e : Effect A) : List (JSVal → List String × JSVal) → Effect A
  | [] => e
  | g :: gs => mapChain (e.map g) gs

/-!
`curry` (src core `curry`).  `fn.length` — the declared required arity — is
the parameter `N`; the wrapped function receives the full accumulated argument
list, exactly as `fn.apply(this, args)` passes it (including any surplus
arguments).  One application step either fires the wrapped function (when the
accumulated count reaches `N`) or returns a new closure over the accumulated
arguments.
-/

inductive CurryOut where
  | value (v : JSVal)
  | pending (acc : List JSVal)

/-- One invocation of the `curried` closure with accumulated arguments `acc`
and new arguments `args`: `args.length >= fn.length` (cumulatively) fires
`fn`, otherwise a new accumulating closure results. -/
def curriedStep (N : Nat) (fn : List JSVal → JSVal) (acc args : List JSVal) : CurryOut :=
  if N ≤ (acc ++ args).length then .value (fn (acc ++ args)) else .pending (acc ++ args)

/-- Running a chain of partial applications against `curry(fn)`: `some v` when
the chain ends exactly at the invocation that fires `fn` (returning `v`);
`none` when the chain ends while still a closure, or fires before its last
call (applying `fn`'s plain result further is outside `curry`). -/
def runCurry (N : Nat) (fn : List JSVal → JSVal) : List JSVal → List (List JSVal) → Option JSVal
  | _, [] => none
  | acc, args :: rest =>
      match curriedStep N fn acc args with
      | .value v => if rest.isEmpty then some v else none
      | .pending acc2 => runCurry N fn acc2 rest

/-- The spec's `add3 = (a, b, c) => a + b + c` test function, defined on the
argument list a curried invocation delivers. -/
def add3 (args : List JSVal) : JSVal :=
  match args with
  | .num a :: .num b :: .num c :: _ => .num (a + b + c)
  | _ => .undefined

/-!
`compose` (src core `compose`): `fns.reduceRight((memo, fn) => fn.call(null,
memo), init)`.  `reduceRight` folds from the last function to the first, so it
is `List.foldr` of plain application.
-/

def compose (fns : List (JSVal → JSVal)) (init : JSVal) : JSVal :=
  fns.foldr (fun fn memo => fn memo) init

/-- Modelled from the spec's words for the compose contract: the rightmost
function consumes the argument first and each result feeds leftward. -/
def composeSpec : List (JSVal → JSVal) → JSVal → JSVal
  | [], x => x
  | f :: fs, x => f (composeSpec fs x)

/-- The `x => x + 1` stage of the spec's compose example. -/
def incrementF : JSVal → JSVal
  | .num n => .num (n + 1)
  | v => v

/-- The template-literal stage of the spec's compose example. -/
def stringifyF : JSVal → JSVal
  | .num n => .str ("Value: " ++ toString n)
  | v => v

/-- The `x => x.toUpperCase()` stage of the spec's compose example
(uppercasing character by character, as `String.prototype.toUpperCase` does
for ASCII text). -/
def toUpperCaseF : JSVal → JSVal
  | .str s => .str (String.mk (s.toList.map Char.toUpper))
  | v => v

/-!
Theorems.  Shared helper lemmas come first; each claim then gets exactly one
theorem (plus, where required, a counterexample and a witness).
-/

theorem isUndefOrNull_eq_false_iff (v : JSVal) :
    isUndefOrNull v = false ↔ v ≠ .undefined ∧ v ≠ .null := by
  cases v <;> simp [isUndefOrNull]

theorem isUndefOrNull_eq_true_iff (v : JSVal) :
    isUndefOrNull v = true ↔ v = .undefined ∨ v = .null := by
  cases v <;> simp [isUndefOrNull]

/-- Claim C1, evaluated at its failing input: `Optional.of(undefined).map(f)`
with `f = () => 42` yields an Optional holding `42` — a present container,
so `f` was invoked on the absent value and the result is not absent.  The
source of `Optional.map` computes `fn(this.x)` unconditionally; only the
`Result` variant guards its absorbing state before calling `fn`. -/
theorem optional_map_absent_invokes_function :
    ((Optional.of .undefined).map (fun _ => .num 42)).x = .num 42
    ∧ JSVal.num 42 ≠ JSVal.undefined :=
  ⟨rfl, fun h => JSVal.noConfusion h⟩

/-- Claim C9: `compose()` with zero functions is the identity — the underlying
`reduceRight` over an empty function list returns the initial argument
unchanged. -/
theorem compose_empty_identity : ∀ (x : JSVal), compose [] x = x :=
  fun _ => rfl

/-- Claim C10: Optional never holds `null`.  `of` collapses `null` and
`undefined` to the one canonical absent representation holding `undefined`,
and the values produced by `map`, `apply` and `bind` are normalised the same
way: their held slot is never `null`, and it is `undefined` exactly when the
computed value was `undefined` or `null`. -/
theorem optional_normalises_null_to_undefined :
    (Optional.of .null = Optional.of .undefined ∧ (Optional.of .undefined).x = .undefined)
    ∧ (∀ (v : JSVal), (Optional.of v).x ≠ .null)
    ∧ (∀ (o : Optional) (f : JSVal → JSVal),
        (o.map f).x ≠ .null ∧ ((o.map f).x = .undefined ↔ isUndefOrNull (f o.x) = true))
    ∧ (∀ (o : Optional) (fx : Option (JSVal → JSVal)), (o.apply fx).x ≠ .null)
    ∧ (∀ (o : Optional) (f : JSVal → Optional),
        (o.bind f).x ≠ .null ∧ ((o.bind f).x = .undefined ↔ isUndefOrNull ((f o.x).x) = true)) := by
  have hmap : ∀ (o : Optional) (f : JSVal → JSVal),
      (o.map f).x ≠ .null ∧ ((o.map f).x = .undefined ↔ isUndefOrNull (f o.x) = true) := by
    intro o f
    cases hc : isUndefOrNull (f o.x) with
    | true =>
        constructor
        · simp [Optional.map, hc]
        · simp [Optional.map, hc]
    | false =>
        have hval := (isUndefOrNull_eq_false_iff (f o.x)).mp hc
        constructor
        · simpa [Optional.map, hc] using hval.2
        · simp [Optional.map, hc, hval.1]
  refine ⟨⟨rfl, rfl⟩, ?_, hmap, ?_, ?_⟩
  · intro v
    cases hc : isUndefOrNull v with
    | true => simp [Optional.of, hc]
    | false =>
        have hval := (isUndefOrNull_eq_false_iff v).mp hc
        simpa [Optional.of, hc] using hval.2
  · intro o fx
    cases fx with
    | none => simp [Optional.apply]
    | some f => exact (hmap o f).1
  · intro o f
    cases hc : isUndefOrNull (f o.x).x with
    | true =>
        constructor
        · simp [Optional.bind, hc]
        · simp [Optional.bind, hc]
    | false =>
        have hval := (isUndefOrNull_eq_false_iff (f o.x).x).mp hc
        constructor
        · simpa [Optional.bind, hc] using hval.2
        · simp [Optional.bind, hc, hval.1]

/-- Claim C3 counterexample: with a fallback entry present,
`match({_: 'default'}, 0)` still raises — the truthiness guard `x && (...)`
keeps every falsy value away from the `_` clause, so the claim that a `_`
entry makes `match` total is false. -/
theorem match_fallback_raises_on_falsy_value :
    matchOuter [("_", Handler.lit (.str "default"))] (.num 0)
      = .result (.error "No match") := rfl

/-- Claim C3 (amended): `match({foo: 'bar'}, 'baz')` raises, and a `_`
fallback makes `match` return without raising for every *truthy* value; but a
falsy value matches no clause except strict key equality, so `match` raises
even with `_` present (e.g. at `0`), and invoking `match(matchers, undefined)`
returns the curried dispatch closure instead of dispatching. -/
theorem match_fallback_amended :
    (∀ (d x : JSVal), jsTruthy x = true → matchFn [("_", Handler.lit d)] x = .ok d)
    ∧ (∀ (d x : JSVal), jsTruthy x = false → matchFn [("_", Handler.lit d)] x = .error "No match")
    ∧ matchOuter [("foo", Handler.lit (.str "bar"))] (.str "baz") = .result (.error "No match")
    ∧ (∀ (b : List (String × Handler)), matchOuter b .undefined = .curriedFn) := by
  have k1 : (("_" : String) == "Functor") = false := rfl
  have k2 : (("_" : String) == "_") = true := rfl
  refine ⟨?_, ?_, rfl, fun b => rfl⟩
  · intro d x h
    simp [matchFn, keyMatches, h, k1, k2]
  · intro d x h
    have hs : strictEqKey x "_" = false := by
      cases x <;> simp_all [strictEqKey, jsTruthy]
    simp [matchFn, keyMatches, h, hs]

/-- Claim C3 witness: the amended theorem applied at the truthy value `7`. -/
theorem match_fallback_amended_witness :
    matchFn [("_", Handler.lit (.str "z"))] (.num 7) = .ok (.str "z") :=
  match_fallback_amended.1 (.str "z") (.num 7) rfl

/-- Claim C6: `compose` is right-to-left composition — it agrees everywhere
with the reference definition that applies the rightmost function first and
feeds each result leftward, and the spec's concrete pipeline maps `5` to
`'VALUE: 6'`. -/
theorem compose_right_to_left :
    (∀ (fns : List (JSVal → JSVal)) (x : JSVal), compose fns x = composeSpec fns x)
    ∧ compose [toUpperCaseF, stringifyF, incrementF] (.num 5) = .str "VALUE: 6" := by
  constructor
  · intro fns x
    induction fns with
    | nil => rfl
    | cons f fs ih => simp [compose, composeSpec] at ih ⊢; rw [ih]
  · rfl

/-- Claim C7, evaluated at its failing input: `is(Functor, null)` throws a
TypeError — `typeof null === 'object'` passes the first conjunct, and then
evaluating `'map' in null` throws — so `is` is not total; on every other
tag/value combination the dispatch does return a boolean. -/
theorem is_predicate_throws_on_functor_null :
    isVal .tFunctor .null
      = .error "TypeError: Cannot use 'in' operator to search for 'map' in null"
    ∧ (∀ (t : Tag) (x : JSVal), (∃ b, isVal t x = .ok b) ∨ (t = .tFunctor ∧ x = .null)) := by
  constructor
  · rfl
  · intro t x
    cases t with
    | tFunctor =>
        cases x with
        | null => exact Or.inr ⟨rfl, rfl⟩
        | undefined => exact Or.inl ⟨_, rfl⟩
        | bool b => exact Or.inl ⟨_, rfl⟩
        | num n => exact Or.inl ⟨_, rfl⟩
        | nan => exact Or.inl ⟨_, rfl⟩
        | big n => exact Or.inl ⟨_, rfl⟩
        | str s => exact Or.inl ⟨_, rfl⟩
        | sym i => exact Or.inl ⟨_, rfl⟩
        | arr es => exact Or.inl ⟨_, rfl⟩
        | obj fs => exact Or.inl ⟨_, rfl⟩
        | func fs => exact Or.inl ⟨_, rfl⟩
        | err m => exact Or.inl ⟨_, rfl⟩
    | tBigInt => exact Or.inl ⟨_, rfl⟩
    | tBoolean => exact Or.inl ⟨_, rfl⟩
    | tFunction => exact Or.inl ⟨_, rfl⟩
    | tNumber => exact Or.inl ⟨_, rfl⟩
    | tObject => exact Or.inl ⟨_, rfl⟩
    | tSymbol => exact Or.inl ⟨_, rfl⟩
    | tString => exact Or.inl ⟨_, rfl⟩
    | tArray => exact Or.inl ⟨_, rfl⟩
    | tUndefined => exact Or.inl ⟨_, rfl⟩
    | tNull => exact Or.inl ⟨_, rfl⟩
    | tCtor name => exact Or.inl ⟨_, rfl⟩
    | tValue v => exact Or.inl ⟨_, rfl⟩

/-- Claim C8 counterexample: the map composition law fails on both variants.
For Optional it fails when the first function returns `null` — the
intermediate Optional normalises `null` to `undefined`, so the second
function sees `undefined` on the left side but `null` on the fused side: with
`c = Optional.of(42)`, `f = () => null` and `g = y => (y === null ? 1 : 2)`,
`c.map(f).map(g)` holds `2` while `c.map(x => g(f(x)))` holds `1`.  For
Result it fails when the first function returns `undefined`, on which the
second `map` sees the guard `is(Error, this.x)` return its truthy curried
closure: with `r = Result.of(42)`, `f = () => undefined` and `g = () => 5`,
`r.map(f).map(g)` short-circuits and holds `undefined` while
`r.map(x => g(f(x)))` holds `5`. -/
theorem map_composition_counterexample :
    ((((Optional.of (.num 42)).map (fun _ => .null)).map
        (fun y => match y with | .null => JSVal.num 1 | _ => JSVal.num 2)).x = .num 2
      ∧ ((Optional.of (.num 42)).map
        (fun v => (fun y => match y with | .null => JSVal.num 1 | _ => JSVal.num 2)
          ((fun _ => JSVal.null) v))).x = .num 1
      ∧ JSVal.num 2 ≠ JSVal.num 1)
    ∧ ((((Result.of (.num 42)).map (fun _ => .undefined)).map (fun _ => .num 5)).x
        = .undefined
      ∧ ((Result.of (.num 42)).map
        (fun v => (fun _ => JSVal.num 5) ((fun _ => JSVal.undefined) v))).x = .num 5
      ∧ JSVal.undefined ≠ JSVal.num 5) := by
  refine ⟨⟨rfl, rfl, ?_⟩, rfl, rfl, fun h => JSVal.noConfusion h⟩
  intro h
  injection h with h2
  exact absurd h2 (by norm_num)

/-- Claim C8 (amended): the map composition law holds for present-state
containers provided neither the receiver's held value nor the first
function's output is a value on which the variant's `map` deviates from
plain application — not `null` for Optional (whose `map` turns a `null`
result into a held `undefined` before the second function runs), and for
Result nothing making `is(Error, this.x)` truthy, i.e. neither an `Error`
(on which the second `map` short-circuits) nor `undefined` (on which `is`
returns its truthy curried closure, so the second `map` short-circuits
there as well). -/
theorem map_composition_amended :
    (∀ (c : Optional) (f g : JSVal → JSVal),
      isUndefOrNull c.x = false → f c.x ≠ .null →
      ((c.map f).map g).x = (c.map (fun v => g (f v))).x)
    ∧ (∀ (r : Result) (f g : JSVal → JSVal),
      isCallTruthy (.tCtor "Error") r.x = false →
      isCallTruthy (.tCtor "Error") (f r.x) = false →
      ((r.map f).map g).x = ((r.map (fun v => g (f v))).x)) := by
  constructor
  · intro c f g _ hf
    cases hc : isUndefOrNull (f c.x) with
    | true =>
        have : f c.x = .undefined := by
          rcases (isUndefOrNull_eq_true_iff (f c.x)).mp hc with h | h
          · exact h
          · exact absurd h hf
        simp [Optional.map, hc, this]
    | false => simp [Optional.map, hc]
  · intro r f g hr hf
    simp [Result.map, Result.of, hr, hf]

/-- Claim C8 witness: the amended law applied to `Optional.of(1)` and
`Result.of(1)` with two concrete functions whose first stage returns a value
that is neither `null` nor `undefined` nor an error. -/
theorem map_composition_amended_witness :
    (((Optional.of (.num 1)).map (fun v => v)).map (fun v => v)).x
      = ((Optional.of (.num 1)).map (fun v => (fun w => w) ((fun w : JSVal => w) v))).x
    ∧ (((Result.of (.num 1)).map (fun v => v)).map (fun v => v)).x
      = ((Result.of (.num 1)).map (fun v => (fun w => w) ((fun w : JSVal => w) v))).x :=
  ⟨map_composition_amended.1 (Optional.of (.num 1)) (fun v => v) (fun v => v) rfl
      (fun h => JSVal.noConfusion h),
    map_composition_amended.2 (Result.of (.num 1)) (fun v => v) (fun v => v) rfl rfl⟩

theorem concatVal_eq_amended (self x : JSVal) :
    concatVal self x = concatAmendedSpec self x := by
  cases hs : isUndefOrNull self with
  | true => simp [concatVal, concatAmendedSpec, hs]
  | false =>
      cases x <;>
        simp [concatVal, concatAmendedSpec, hs, isCallTruthy, isVal, jsTypeof,
          instanceOfName, hasCallableMap, isArrayVal]

/-- Claim C2 counterexample: the claimed replace-on-unrecognised-type branch
is dead code.  A symbol argument on a present Optional reaches the
shallow-merge branch (because `is(Object, x) || is(Function)` is always
truthy, `is(Function)` without a second argument being a curried closure), so
`Optional.of(42).concat(sym)` holds an empty plain object, not the symbol.
Likewise the replacement rule does not fire for a Result in its error
(absorbing) state, since `Result.concat` tests `undefined`/`null` instead:
`Result.of(new Error('boom')).concat(1)` string-coerces the error and holds
`'Error: boom1'`, not `1`. -/
theorem concat_counterexample_dead_replace_branch :
    (Optional.concat (Optional.of (.num 42)) (.sym 0) = .ok ⟨.obj []⟩
      ∧ JSVal.obj [] ≠ JSVal.sym 0)
    ∧ (Result.concat (Result.of (.err "boom")) (.num 1) = .ok ⟨.str "Error: boom1"⟩
      ∧ JSVal.str "Error: boom1" ≠ JSVal.num 1) :=
  ⟨⟨rfl, fun h => JSVal.noConfusion h⟩, ⟨rfl, fun h => JSVal.noConfusion h⟩⟩

/-- Claim C2 (amended): `concat` on Optional and on Result follows the same
amended dispatch table: replacement with the argument itself exactly when the
held value is `undefined` or `null` (so an error-holding Result does not
replace, and a replaced `null` is stored as-is rather than normalised through
`of`); an `undefined` argument goes through the JavaScript `+` operator —
`this.x + undefined`, that is `NaN` for numeric receivers and string
concatenation with the text `undefined` for string-coercing ones — because
the first dispatch test `is(BigInt, undefined)` already returns the truthy
curried closure; otherwise dispatch on the runtime type of the argument —
bigint, number (`NaN` included) and string through `+`, boolean through `&&`,
array through iterable spread of the receiver followed by the argument's
elements — and every remaining type (object and function, but equally symbol
and `null`, the replace branch being unreachable) through shallow object
merge with the argument's keys overriding the receiver's. -/
theorem concat_follows_amended_table :
    (∀ (o : Optional) (v : JSVal),
      Optional.concat o v = Except.map Optional.mk (concatAmendedSpec o.x v))
    ∧ (∀ (r : Result) (v : JSVal),
      Result.concat r v = Except.map Result.mk (concatAmendedSpec r.x v)) :=
  ⟨fun o v => by rw [Optional.concat, concatVal_eq_amended],
    fun r v => by rw [Result.concat, concatVal_eq_amended]⟩

theorem isCallTruthy_promise_eq_false {v : JSVal} (hv : v ≠ .undefined) :
    isCallTruthy (.tCtor "Promise") v = false := by
  cases v with
  | undefined => exact absurd rfl hv
  | err m =>
      show (("Promise" : String) == "Error") = false
      rfl
  | _ => rfl

theorem mapChain_call_ok {A : Type} :
    ∀ (ps : List (String × (JSVal → JSVal))) (e : Effect A) (a : A)
      (l : List String) (v : JSVal),
      e a = (l, .ok v) →
      (∀ i, i < ps.length → (ps.take i).foldl (fun w p => p.2 w) v ≠ .undefined) →
      Effect.call (mapChain e (ps.map (fun p => traced p.1 p.2))) a
        = (l ++ ps.map Prod.fst, .ok (ps.foldl (fun w p => p.2 w) v)) := by
  intro ps
  induction ps with
  | nil => intro e a l v he _; simp [mapChain, Effect.call, he]
  | cons p ps ih =>
      intro e a l v he hmid
      have hv : v ≠ .undefined := by
        have := hmid 0 (by simp)
        simpa using this
      have he2 : (e.map (traced p.1 p.2)) a = (l ++ [p.1], .ok (p.2 v)) := by
        simp [Effect.map, he, traced, isCallTruthy_promise_eq_false hv]
      simp only [List.map_cons, mapChain]
      rw [ih (e.map (traced p.1 p.2)) a (l ++ [p.1]) (p.2 v) he2 ?hm]
      case hm =>
        intro i hi
        have := hmid (i + 1) (by simpa using Nat.succ_lt_succ hi)
        simpa [List.foldl_cons] using this
      simp [List.foldl_cons, List.append_assoc]

/-- Claim C4 counterexample: a mapped stage is not always reached and the
synchronous pipeline identity fails.  When the wrapped function synchronously
returns `undefined`, the closure built by `map` evaluates `is(Promise, y)`,
which returns the truthy curried closure, and `undefined.then(fn)` throws a
TypeError: `Effect.of(f).map(g).call(0)` with `f = () => undefined` raises
instead of yielding `g(f(0)) = undefined`, and `g` is never invoked (the
trace holds only the entry of `f`). -/
theorem effect_pipeline_counterexample :
    Effect.call ((Effect.of (traced "f" (fun _ : JSVal => JSVal.undefined))).map
        (traced "g" (fun v : JSVal => v))) (.num 0)
      = (["f"], .error "TypeError: Cannot read properties of undefined (reading then)")
    ∧ (["f"] : List String) ≠ ["f", "g"] := by
  exact ⟨rfl, by decide⟩

/-- Claim C4 (amended): Effect is lazy and ordered provided no intermediate
synchronous result is `undefined`.  Wrapped callables and mapped
transformations are instrumented to log their invocation; constructing an
Effect or registering `map` stages builds a closure and logs nothing — a
trace exists only as the output of `call`.  If none of the values fed from
one stage to the next is `undefined` (on which the `is(Promise, y)` test is
the truthy curried closure and the pipeline throws instead), each `call`
produces exactly one log entry per stage, wrapped function first and then the
mapped transformations in registration order, for a chain of any length, and
returns the left-to-right composition of the stages — for two mapped stages,
`h(g(f(args)))`. -/
theorem effect_lazy_ordered_amended :
    ∀ (A : Type) (f : A → JSVal) (nf : String)
      (ps : List (String × (JSVal → JSVal))) (a : A),
      (∀ i, i < ps.length → (ps.take i).foldl (fun w p => p.2 w) (f a) ≠ .undefined) →
      Effect.call (mapChain (Effect.of (traced nf f)) (ps.map (fun p => traced p.1 p.2))) a
        = (nf :: ps.map Prod.fst, .ok (ps.foldl (fun w p => p.2 w) (f a))) := by
  intro A f nf ps a hmid
  have := mapChain_call_ok ps (Effect.of (traced nf f)) a [nf] (f a) rfl hmid
  simpa using this

/-- Claim C4 witness: the amended theorem applied to the concrete pipeline
`Effect.of(v => v).map(v => v + 1).call(0)`, whose only intermediate value is
`0`, not `undefined`; the call logs `f` then `g` and returns `1`. -/
theorem effect_lazy_ordered_amended_witness :
    Effect.call (mapChain (Effect.of (traced "f" (fun v : JSVal => v)))
        ([("g", incrementF)].map (fun p => traced p.1 p.2))) (.num 0)
      = (["f", "g"], .ok (.num 1)) :=
  effect_lazy_ordered_amended JSVal (fun v => v) "f" [("g", incrementF)] (.num 0)
    (by
      intro i hi
      have h1 : i < 1 := by simpa using hi
      have hz : i = 0 := by omega
      subst hz
      exact fun h => JSVal.noConfusion h)

theorem runCurry_fires (N : Nat) (fn : List JSVal → JSVal) :
    ∀ (calls : List (List JSVal)) (acc : List JSVal), calls ≠ [] →
      (∀ i, i < calls.length → 0 < i → acc.length + ((calls.take i).flatten).length < N) →
      N ≤ acc.length + (calls.flatten).length →
      runCurry N fn acc calls = some (fn (acc ++ calls.flatten)) := by
  intro calls
  induction calls with
  | nil => intro acc h _ _; exact absurd rfl h
  | cons a rest ih =>
      intro acc _ hmid htot
      cases rest with
      | nil =>
          have hk : N ≤ acc.length + a.length := by
            simpa using htot
          simp [runCurry, curriedStep, hk]
      | cons b rest2 =>
          have h1 : acc.length + a.length < N := by
            have := hmid 1 (by simp) (by norm_num)
            simpa using this
          have hstep : curriedStep N fn acc a = .pending (acc ++ a) := by
            unfold curriedStep
            rw [if_neg]
            simp only [List.length_append]
            omega
          have hrw : runCurry N fn acc (a :: b :: rest2)
              = runCurry N fn (acc ++ a) (b :: rest2) := by
            simp [runCurry, hstep]
          rw [hrw]
          rw [ih (acc ++ a) (by simp) ?hm ?ht]
          case hm =>
            intro i hi hpos
            have := hmid (i + 1) (by simpa using Nat.succ_lt_succ hi) (Nat.succ_pos i)
            simp only [List.take_succ_cons, List.flatten_cons, List.length_append] at this ⊢
            omega
          case ht =>
            simp only [List.flatten_cons, List.length_append] at htot ⊢
            omega
          simp [List.flatten_cons, List.append_assoc]

/-- Claim C5: `curry` accumulates arguments left-to-right across partial
applications and fires the wrapped function, with the whole accumulated
argument list, at exactly the application whose cumulative argument count
first reaches or exceeds the declared arity `N`, returning its result; in
particular every bracketing of `curry(add3)` over the arguments `1, 2, 3`
yields `6`. -/
theorem curry_accumulates_until_arity :
    (∀ (N : Nat) (fn : List JSVal → JSVal) (calls : List (List JSVal)), calls ≠ [] →
      (∀ i, i < calls.length → 0 < i → ((calls.take i).flatten).length < N) →
      N ≤ (calls.flatten).length →
      runCurry N fn [] calls = some (fn calls.flatten))
    ∧ runCurry 3 add3 [] [[.num 1, .num 2, .num 3]] = some (.num 6)
    ∧ runCurry 3 add3 [] [[.num 1], [.num 2], [.num 3]] = some (.num 6)
    ∧ runCurry 3 add3 [] [[.num 1, .num 2], [.num 3]] = some (.num 6)
    ∧ runCurry 3 add3 [] [[.num 1], [.num 2, .num 3]] = some (.num 6) := by
  refine ⟨?_, rfl, rfl, rfl, rfl⟩
  intro N fn calls hne hmid htot
  have := runCurry_fires N fn calls [] hne (by simpa using hmid) (by simpa using htot)
  simpa using this

/-- Claim C5 witness: the general accumulation theorem applied to the chain
`curry(add3)(1)(2)(3)`, whose two proper partial applications stay below the
arity `3` and whose final application reaches it. -/
theorem curry_accumulates_until_arity_witness :
    runCurry 3 add3 [] [[.num 1], [.num 2], [.num 3]]
      = some (add3 [.num 1, .num 2, .num 3]) :=
  curry_accumulates_until_arity.1 3 add3 [[.num 1], [.num 2], [.num 3]]
    (by simp) (by decide) (by decide)
